import Mathlib

/-!
Shallow embedding of the `feathersjs-couchbase` CouchService
(`src/lib/service/couchbase.service.js`).

JavaScript objects are modelled as association lists from field names to
values (`Obj`), with lookup / assignment / deletion functions mirroring
JavaScript property semantics.  Each asynchronous service method is
modelled as a pure function from the configuration and the store client's
responses (one response per store call the method issues) to an `Outcome`:
the promise either resolves with a value, rejects with an error, or never
settles (`pending`, which happens in this code when a rejection is left
unhandled inside a `new Promise` executor).  Besides the outcome, each
model returns the store writes the method issued (key and payload), so
that theorems can speak about what was written and at which key.
-/

namespace FC

/-- JSON-like field values as used by the claims.  `strList` models a
JavaScript array of strings (the shape `$select` takes). -/
inductive Val where
  | null
  | bool (b : Bool)
  | num (n : Int)
  | str (s : String)
  | strList (ss : List String)
deriving DecidableEq, Repr

/-- A JavaScript object: association list from field name to value.
JavaScript objects have unique keys; operations below preserve that. -/
abbrev Obj := List (String × Val)

/-- Property read `o[k]`: first matching key, `none` when absent. -/
def getKey : Obj → String → Option Val
  | [], _ => none
  | (k, v) :: rest, key => if k = key then some v else getKey rest key

/-- Property write `o[k] = v`: replaces the value in place when the key is
present, appends otherwise (JavaScript insertion-order semantics). -/
def setKey : Obj → String → Val → Obj
  | [], key, v => [(key, v)]
  | (k, w) :: rest, key, v =>
    if k = key then (k, v) :: rest else (k, w) :: setKey rest key v

/-- Property deletion `delete o[k]`. -/
def delKey : Obj → String → Obj
  | [], _ => []
  | (k, v) :: rest, key =>
    if k = key then delKey rest key else (k, v) :: delKey rest key

/-- The loop body of `_stripKeys`: keep, in order, exactly the own fields
of a row whose name occurs in the selected list
(`a.hasOwnProperty(key) && ~selected.indexOf(key)`). -/
def pickKeys (selected : List String) : Obj → Obj
  | [] => []
  | (k, v) :: rest =>
    if k ∈ selected then (k, v) :: pickKeys selected rest
    else pickKeys selected rest

/-- The field names of an object. -/
def keysOf (o : Obj) : List String :=
  o.map (fun kv => kv.1)

/-- `Object.assign(target, source)`: write every field of `source` onto
`target`, in order. -/
def objAssign (target source : Obj) : Obj :=
  source.foldl (fun acc kv => setKey acc kv.1 kv.2) target

/-- JavaScript string coercion of a value, as performed by
`Array.prototype.join` in `_key` (the claims only exercise `str`). -/
def valToStr : Val → String
  | .null => "null"
  | .bool b => if b then "true" else "false"
  | .num n => toString n
  | .str s => s
  | .strList ss => String.intercalate "," ss

/-- Service configuration fixed at construction
(`opts.name`, `opts.separator` default `"::"`, `opts.id` default `"uuid"`). -/
structure Cfg where
  name : String
  separator : String
  idField : String
deriving DecidableEq, Repr

/-- An error object surfaced by the store client, carrying a numeric code. -/
structure SErr where
  code : Nat
  msg : String
deriving DecidableEq, Repr

/-- `couchbase.errors.keyNotFound` (code 13 in the 2.x SDK). -/
def keyNotFound : Nat := 13

/-- Errors a service promise can reject with. -/
inductive Err where
  | badRequest (m : String)
  | notFound (m : String)
  | store (e : SErr)
deriving DecidableEq, Repr

/-- One store-client response: success payload or error. -/
inductive StoreRes (α : Type) where
  | ok (a : α)
  | err (e : SErr)
deriving DecidableEq, Repr

/-- The observable fate of a service promise.  `pending` models a promise
that never settles (a dropped rejection). -/
inductive Outcome (α : Type) where
  | resolved (a : α)
  | rejected (e : Err)
  | pending
deriving DecidableEq, Repr

namespace Service

/-- `_key(key)`: `[this.opts.name, key].join(this.separator)`. -/
def buildKey (c : Cfg) (key : String) : String :=
  c.name ++ c.separator ++ key

/-- `_id(data)`: if the id field is absent, generate a fresh id, write it
into the entity, and return it; otherwise return the stored value.  The
fresh uuid is a parameter.  Returns the id value and the (possibly
mutated) entity. -/
def ensureId (c : Cfg) (fresh : String) (data : Obj) : Val × Obj :=
  match getKey data c.idField with
  | some v => (v, data)
  | none => (.str fresh, setKey data c.idField (.str fresh))

/-- `get(id, params)` as a function of the store get response: a store
error with code `keyNotFound` or a null element reject with `NotFound`;
any other store error is passed through; otherwise resolve the entity. -/
def get (resp : StoreRes (Option Obj)) : Outcome Obj :=
  match resp with
  | .err e =>
    if e.code = keyNotFound then .rejected (.notFound "Does not exist")
    else .rejected (.store e)
  | .ok none => .rejected (.notFound "Does not exist")
  | .ok (some o) => .resolved o

/-- Result of running `create`: the promise outcome and the insert the
method issued against the store (key and payload), when any. -/
structure CreateExec where
  outcome : Outcome Obj
  inserted : Option (String × Obj)
deriving DecidableEq, Repr

/-- `create(data, params)`.  Null data rejects `BadRequest`.  Otherwise
`data._type = name`, the id is ensured, and `insert` is issued at the
derived key.  The insert callback ignores its error argument and resolves
with a fresh `get` of the same id (`reget` is that get's store response). -/
def create (c : Cfg) (fresh : String) (data : Option Obj)
    (insertResp : StoreRes Val) (reget : StoreRes (Option Obj)) : CreateExec :=
  match data with
  | none => ⟨.rejected (.badRequest "No data passed to create"), none⟩
  | some d =>
    let d1 := setKey d "_type" (.str c.name)
    let idAndData := ensureId c fresh d1
    ⟨get reget, some (buildKey c (valToStr idAndData.1), idAndData.2)⟩

/-- Result of running `patch` (or `update`): the promise outcome and the
replace issued against the store (key and payload), when any. -/
structure PatchExec where
  outcome : Outcome Obj
  replaced : Option (String × Obj)
deriving DecidableEq, Repr

/-- `patch(id, data, params)`.  Reads the entity (`g1`).  When the read
rejects, the rejection is unhandled and the patch promise never settles.
When it resolves, `replace` is issued at `_key(id)` with
`Object.assign(Object.assign(_obj, data), { _type: name })`; the replace
callback ignores its error argument and resolves with a fresh `get`
(`g2` is that get's store response). -/
def patch (c : Cfg) (id : String) (data : Obj)
    (g1 : StoreRes (Option Obj)) (replaceResp : StoreRes Val)
    (g2 : StoreRes (Option Obj)) : PatchExec :=
  match get g1 with
  | .resolved o =>
    let merged := objAssign (objAssign o data) [("_type", .str c.name)]
    ⟨get g2, some (buildKey c id, merged)⟩
  | _ => ⟨.pending, none⟩

/-- `update(id, data, params)`: `new Promise(resolve => this.patch(...)
.then(r => resolve(r)))` — resolves with patch's value, and never settles
when patch rejects (no rejection handler). -/
def update (c : Cfg) (id : String) (data : Obj)
    (g1 : StoreRes (Option Obj)) (replaceResp : StoreRes Val)
    (g2 : StoreRes (Option Obj)) : PatchExec :=
  let ex := patch c id data g1 replaceResp g2
  ⟨match ex.outcome with
   | .resolved v => .resolved v
   | _ => .pending,
   ex.replaced⟩

/-- Result of running `remove`: the promise outcome (the store's remove
result on success), the key handed to the store's `remove`, and the
fetched entity after `_id` possibly mutated it. -/
structure RemoveExec where
  outcome : Outcome Obj
  removedKey : Option String
  dataAfter : Option Obj
deriving DecidableEq, Repr

/-- `remove(id, params)`: resolves the chain
`this.get(id).then(data => bucket.remove(this._key(this._id(data))))`.
A failed read propagates its rejection; otherwise the store `remove` is
issued at a key derived from the fetched entity's id field (generated and
written into the entity when absent) and the promise settles with the
store remove result. -/
def remove (c : Cfg) (fresh : String) (getResp : StoreRes (Option Obj))
    (removeResp : StoreRes Obj) : RemoveExec :=
  match get getResp with
  | .resolved d =>
    let idAndData := ensureId c fresh d
    let key := buildKey c (valToStr idAndData.1)
    match removeResp with
    | .ok v => ⟨.resolved v, some key, some idAndData.2⟩
    | .err e => ⟨.rejected (.store e), some key, some idAndData.2⟩
  | .rejected e => ⟨.rejected e, none, none⟩
  | .pending => ⟨.pending, none, none⟩

/-- `_stripKeys(selected, results)`: for each row keep exactly the own
fields whose name occurs in `selected`. -/
def stripKeys (selected : List String) (results : List Obj) : List Obj :=
  results.map (fun a => pickKeys selected a)

/-- The pagination configuration `{ default, max }` (either may be absent
in JavaScript; the claims only need `max` when `default` is set). -/
structure Pag where
  pdefault : Option Int
  pmax : Int
deriving DecidableEq, Repr

/-- Truthiness of `paginate.default` (absent and `0` are falsy). -/
def pagActive (p : Pag) : Bool :=
  match p.pdefault with
  | some d => d ≠ 0
  | none => false

/-- `R.clamp(lo, hi)` applied to a `$limit` value; only numbers are
clamped (the claims hypothesise a numeric or absent `$limit`). -/
def jsClamp (lo hi : Int) : Val → Val
  | .num n => .num (if n < lo then lo else if n > hi then hi else n)
  | v => v

/-- Integer clamp to the interval from `lo` to `hi`. -/
def clampInt (lo hi n : Int) : Int :=
  if n < lo then lo else if n > hi then hi else n

/-- `if (query.$limit == null) query.$limit = paginate.default`:
the defaulting step (`== null` matches both absent and `null`). -/
def defaultedLimit (p : Pag) (cur : Option Val) : Val :=
  match cur with
  | none => .num (p.pdefault.getD 0)
  | some .null => .num (p.pdefault.getD 0)
  | some v => v

/-- `query.$skip != null ? query.$skip : 0`. -/
def jsSkip : Option Val → Val
  | none => .num 0
  | some .null => .num 0
  | some v => v

/-- JavaScript truthiness of the `$select` value (arrays, even empty,
are truthy). -/
def selTruthy : Option Val → Bool
  | none => false
  | some .null => false
  | some (.bool b) => b
  | some (.num n) => n ≠ 0
  | some (.str s) => s ≠ ""
  | some (.strList _) => true

/-- The `params` argument of `find`: an optional `query` object and an
optional per-call `paginate` override. -/
structure FindParams where
  query : Option Obj
  paginate : Option Pag
deriving DecidableEq, Repr

/-- What `find` resolves with: a bare row list, or the pagination
envelope `{total, limit, skip, data}`. -/
inductive FindRes where
  | bare (rows : List Obj)
  | envelope (total : Int) (limit : Option Val) (skip : Val) (rows : List Obj)
deriving DecidableEq, Repr

/-- The mutations `find` performs on the caller's query object before
compiling the statement: set `_type`, default and clamp `$limit` when
pagination is active, delete `$consistency`. -/
def findPrep (c : Cfg) (p : Pag) (q : Obj) : Obj :=
  delKey
    (if pagActive p then
      setKey (setKey q "_type" (.str c.name)) "$limit"
        (jsClamp 0 p.pmax
          (defaultedLimit p (getKey (setKey q "_type" (.str c.name)) "$limit")))
    else
      setKey q "_type" (.str c.name))
    "$consistency"

/-- The selection captured from a truthy array-valued `$select`. -/
def selectedOf : Option Val → List String
  | some (.strList ss) => ss
  | _ => []

/-- The query object as `_find` leaves it: a truthy `$select` is deleted. -/
def findInnerQuery (q : Obj) : Obj :=
  if selTruthy (getKey q "$select") then delKey q "$select" else q

/-- The result rows of `_find`: stripped when the captured selection is
nonempty, the raw rows otherwise. -/
def findInnerRows (q : Obj) (rows : List Obj) : List Obj :=
  if (selectedOf (getKey q "$select")).length > 0 then
    stripKeys (selectedOf (getKey q "$select")) rows
  else rows

/-- `_find(query, paginate)` after the statement has produced `rows` with
total `resultCount`: extract and delete a truthy `$select`, strip rows
when the selection is nonempty, and either return the bare rows or wrap
them in the envelope (reading `$limit` and `$skip` off the query object).
Also returns the query object as the caller sees it afterwards. -/
def findInner (p : Pag) (q : Obj) (rows : List Obj) (resultCount : Int) :
    FindRes × Obj :=
  if pagActive p then
    (.envelope resultCount (getKey (findInnerQuery q) "$limit")
        (jsSkip (getKey (findInnerQuery q) "$skip")) (findInnerRows q rows),
      findInnerQuery q)
  else
    (.bare (findInnerRows q rows), findInnerQuery q)

/-- Result of running `find`: the promise outcome, the query object as
handed to `QB.interpret` (i.e. at statement-compilation time), and the
caller's query object after the call (`none` when no query was given). -/
structure FindExec where
  outcome : Outcome FindRes
  compiledQuery : Obj
  queryAfter : Option Obj
deriving DecidableEq, Repr

/-- `find(params)` as a function of the store's query response
(`rows`, `resultCount`).  Missing `params` or missing `params.query`
reject with `BadRequest`; otherwise the query is mutated by `findPrep`,
compiled, executed, and post-processed by `findInner`. -/
def find (c : Cfg) (dflt : Pag) (params : Option FindParams)
    (rows : List Obj) (resultCount : Int) : FindExec :=
  match params with
  | none => ⟨.rejected (.badRequest "Null passed to find"), [], none⟩
  | some ps =>
    match ps.query with
    | none => ⟨.rejected (.badRequest "Null query object passed"), [], none⟩
    | some q =>
      ⟨.resolved
          (findInner (ps.paginate.getD dflt) (findPrep c (ps.paginate.getD dflt) q)
            rows resultCount).1,
        findPrep c (ps.paginate.getD dflt) q,
        some
          (findInner (ps.paginate.getD dflt) (findPrep c (ps.paginate.getD dflt) q)
            rows resultCount).2⟩

/-- The rows carried by a resolved `find` outcome (bare or envelope). -/
def resultRows : Outcome FindRes → Option (List Obj)
  | .resolved (.bare rows) => some rows
  | .resolved (.envelope _ _ _ rows) => some rows
  | _ => none

/-- The `limit` field of a resolved envelope outcome. -/
def envelopeLimit : Outcome FindRes → Option (Option Val)
  | .resolved (.envelope _ limit _ _) => some limit
  | _ => none

/-- The `_type` field of the payload of an issued store write. -/
def writtenType : Option (String × Obj) → Option Val
  | some kw => getKey kw.2 "_type"
  | none => none

/-- The key of an issued store write. -/
def writtenKey : Option (String × Obj) → Option String
  | some kw => some kw.1
  | none => none

/-- The payload of an issued store write (empty object when none). -/
def writtenObj : Option (String × Obj) → Obj
  | some kw => kw.2
  | none => []

/-- Lookup lifted over an optional object. -/
def getKeyA : Option Obj → String → Option Val
  | some o, k => getKey o k
  | none, _ => none

end Service

theorem getKey_eq_none_of_not_mem : ∀ (o : Obj) (k : String),
    k ∉ keysOf o → getKey o k = none
  | [], _, _ => rfl
  | (k0, v0) :: rest, k, h => by
    have hne : k0 ≠ k := by
      intro he
      exact h (by simp [keysOf, he])
    have hrest : k ∉ keysOf rest := by
      intro hm
      exact h (by simp [keysOf] at hm ⊢; exact Or.inr hm)
    simp [getKey, hne, getKey_eq_none_of_not_mem rest k hrest]

theorem getKey_setKey_self : ∀ (o : Obj) (k : String) (v : Val),
    getKey (setKey o k v) k = some v
  | [], k, v => by simp [setKey, getKey]
  | (k0, v0) :: rest, k, v => by
    by_cases h : k0 = k
    · simp [setKey, getKey, h]
    · simp [setKey, getKey, h, getKey_setKey_self rest k v]

theorem getKey_setKey_ne : ∀ (o : Obj) (k k' : String) (v : Val), k' ≠ k →
    getKey (setKey o k v) k' = getKey o k'
  | [], k, k', v, h => by
    have hne : k ≠ k' := fun he => h he.symm
    simp [setKey, getKey, hne]
  | (k0, v0) :: rest, k, k', v, h => by
    have hne : k ≠ k' := fun he => h he.symm
    by_cases h0 : k0 = k
    · simp [setKey, getKey, h0, hne]
    · by_cases h1 : k0 = k'
      · simp [setKey, getKey, h0, h1, h]
      · simp [setKey, getKey, h0, h1, getKey_setKey_ne rest k k' v h]

theorem getKey_delKey_ne : ∀ (o : Obj) (k k' : String), k' ≠ k →
    getKey (delKey o k) k' = getKey o k'
  | [], _, _, _ => rfl
  | (k0, v0) :: rest, k, k', h => by
    have hne : k ≠ k' := fun he => h he.symm
    by_cases h0 : k0 = k
    · simp [delKey, getKey, h0, hne, getKey_delKey_ne rest k k' h]
    · by_cases h1 : k0 = k'
      · simp [delKey, getKey, h0, h1, h]
      · simp [delKey, getKey, h0, h1, getKey_delKey_ne rest k k' h]

theorem getKey_delKey_self : ∀ (o : Obj) (k : String),
    getKey (delKey o k) k = none
  | [], _ => rfl
  | (k0, v0) :: rest, k => by
    by_cases h0 : k0 = k
    · simp [delKey, getKey, h0, getKey_delKey_self rest k]
    · simp [delKey, getKey, h0, getKey_delKey_self rest k]

theorem objAssign_nil (t : Obj) : objAssign t [] = t := rfl

theorem objAssign_cons (t : Obj) (k : String) (v : Val) (rest : Obj) :
    objAssign t ((k, v) :: rest) = objAssign (setKey t k v) rest := rfl

theorem getKey_objAssign : ∀ (s t : Obj) (k : String), (keysOf s).Nodup →
    getKey (objAssign t s) k = Option.or (getKey s k) (getKey t k)
  | [], t, k, _ => by simp [objAssign, getKey, Option.or]
  | (k0, v0) :: rest, t, k, hnd => by
    have hnd0 : (k0 :: keysOf rest).Nodup := hnd
    have hnd' : (keysOf rest).Nodup := hnd0.of_cons
    have hk0 : k0 ∉ keysOf rest := (List.nodup_cons.mp hnd0).1
    rw [objAssign_cons, getKey_objAssign rest (setKey t k0 v0) k hnd']
    by_cases h : k0 = k
    · subst h
      simp [getKey, getKey_eq_none_of_not_mem rest k0 hk0,
        getKey_setKey_self, Option.or]
    · simp [getKey, h, getKey_setKey_ne t k0 k v0 (fun he => h he.symm)]

theorem getKey_pickKeys : ∀ (ss : List String) (a : Obj) (k : String),
    getKey (pickKeys ss a) k = if k ∈ ss then getKey a k else none
  | ss, [], k => by
    by_cases h : k ∈ ss <;> simp [pickKeys, getKey, h]
  | ss, (k0, v0) :: rest, k => by
    by_cases hk : k0 = k
    · by_cases hc : k ∈ ss
      · simp [pickKeys, getKey, hk, hc]
      · simp [pickKeys, getKey, hk, hc, getKey_pickKeys ss rest k]
    · by_cases hc : k0 ∈ ss
      · simp [pickKeys, getKey, hk, hc, getKey_pickKeys ss rest k]
      · simp [pickKeys, getKey, hk, hc, getKey_pickKeys ss rest k]

theorem buildKey_inj (c : Cfg) {s t : String}
    (h : Service.buildKey c s = Service.buildKey c t) : s = t := by
  unfold Service.buildKey at h
  have h2 : (c.name ++ c.separator).data ++ s.data
      = (c.name ++ c.separator).data ++ t.data := by
    have h3 := congrArg String.data h
    simpa [String.data_append, List.append_assoc] using h3
  exact String.ext (List.append_cancel_left h2)

theorem getKey_findPrep_other (c : Cfg) (p : Service.Pag) (q : Obj) (k : String)
    (h1 : k ≠ "_type") (h2 : k ≠ "$limit") (h3 : k ≠ "$consistency") :
    getKey (Service.findPrep c p q) k = getKey q k := by
  unfold Service.findPrep
  rw [getKey_delKey_ne _ "$consistency" k h3]
  by_cases hact : Service.pagActive p = true
  · rw [if_pos hact, getKey_setKey_ne _ "$limit" k _ h2,
      getKey_setKey_ne _ "_type" k _ h1]
  · rw [if_neg hact, getKey_setKey_ne _ "_type" k _ h1]

theorem findInner_snd (p : Service.Pag) (q : Obj) (rows : List Obj) (cnt : Int) :
    (Service.findInner p q rows cnt).2 = Service.findInnerQuery q := by
  unfold Service.findInner
  by_cases h : Service.pagActive p = true
  · rw [if_pos h]
  · rw [if_neg h]

theorem getKey_findInnerQuery_ne (q : Obj) (k : String) (h : k ≠ "$select") :
    getKey (Service.findInnerQuery q) k = getKey q k := by
  unfold Service.findInnerQuery
  by_cases hs : Service.selTruthy (getKey q "$select") = true
  · rw [if_pos hs, getKey_delKey_ne _ "$select" k h]
  · rw [if_neg hs]

theorem getKey_findPrep_type (c : Cfg) (p : Service.Pag) (q : Obj) :
    getKey (Service.findPrep c p q) "_type" = some (Val.str c.name) := by
  unfold Service.findPrep
  rw [getKey_delKey_ne _ "$consistency" "_type" (by decide)]
  by_cases hact : Service.pagActive p = true
  · rw [if_pos hact, getKey_setKey_ne _ "$limit" "_type" _ (by decide),
      getKey_setKey_self]
  · rw [if_neg hact, getKey_setKey_self]

theorem getKey_findPrep_consistency (c : Cfg) (p : Service.Pag) (q : Obj) :
    getKey (Service.findPrep c p q) "$consistency" = none := by
  unfold Service.findPrep
  exact getKey_delKey_self _ "$consistency"

/-- Claim C1 (code bug): the claim — and the spec — say `remove(id, params)`
resolves with the removed entity exactly as it was read before the deletion.
The code reads the entity but then resolves the chain with the store
client's `remove` result, discarding the entity that was read.  At the
concrete input below the promise resolves with the store result (a cas
object), which differs from the read entity. -/
theorem C1_remove_discards_read_entity :
    (Service.remove ⟨"users", "::", "uuid"⟩ "gen"
        (.ok (some [("uuid", .str "abc"), ("foo", .str "bar")]))
        (.ok [("cas", .num 1)])).outcome
      = .resolved [("cas", Val.num 1)] ∧
    (Outcome.resolved ([("cas", Val.num 1)] : Obj)
      ≠ .resolved [("uuid", Val.str "abc"), ("foo", Val.str "bar")]) := by
  exact ⟨by decide, by decide⟩

/-- Claim C2 (code bug): the claim says non-missing-key store errors are
propagated unchanged.  In `create` and `patch` the store callback's error
argument is ignored: a failed `insert` (resp. `replace`) is swallowed and
the operation resolves with the result of a fresh `get`.  Below, the store
reports error code 999 on the write, yet both operations resolve. -/
theorem C2_store_write_errors_swallowed :
    (Service.create ⟨"users", "::", "uuid"⟩ "gen" (some [("foo", .str "bar")])
        (.err ⟨999, "network failure"⟩)
        (.ok (some [("foo", .str "bar"), ("_type", .str "users"),
          ("uuid", .str "gen")]))).outcome
      = .resolved [("foo", Val.str "bar"), ("_type", Val.str "users"),
          ("uuid", Val.str "gen")] ∧
    (Service.create ⟨"users", "::", "uuid"⟩ "gen" (some [("foo", .str "bar")])
        (.err ⟨999, "network failure"⟩)
        (.ok (some [("foo", .str "bar"), ("_type", .str "users"),
          ("uuid", .str "gen")]))).outcome
      ≠ .rejected (.store ⟨999, "network failure"⟩) ∧
    (Service.patch ⟨"users", "::", "uuid"⟩ "abc" [("b", .num 2)]
        (.ok (some [("a", .num 1)]))
        (.err ⟨999, "network failure"⟩)
        (.ok (some [("a", .num 1), ("b", .num 2), ("_type", .str "users")]))).outcome
      = .resolved [("a", Val.num 1), ("b", Val.num 2), ("_type", Val.str "users")] ∧
    (Service.patch ⟨"users", "::", "uuid"⟩ "abc" [("b", .num 2)]
        (.ok (some [("a", .num 1)]))
        (.err ⟨999, "network failure"⟩)
        (.ok (some [("a", .num 1), ("b", .num 2), ("_type", .str "users")]))).outcome
      ≠ .rejected (.store ⟨999, "network failure"⟩) := by
  exact ⟨by decide, by decide, by decide, by decide⟩

/-- Claim C3 counterexample: the claim says `update` rejects with the same
error whenever `patch` rejects.  `patch` can reject (the replace callback
resolves with a fresh `get`, which can fail, e.g. after a concurrent
removal), and in that case `update`, which chains `.then(r => resolve(r))`
with no rejection handler, never settles.  Concretely: the initial read
succeeds, the replace succeeds, the re-read reports a missing key, so
`patch` rejects with `NotFound` while `update` stays pending. -/
theorem C3_update_swallows_patch_rejection :
    (Service.patch ⟨"users", "::", "uuid"⟩ "abc" [("b", .num 2)]
        (.ok (some [("a", .num 1)])) (.ok (.num 1)) (.err ⟨13, "gone"⟩)).outcome
      = .rejected (.notFound "Does not exist") ∧
    (Service.update ⟨"users", "::", "uuid"⟩ "abc" [("b", .num 2)]
        (.ok (some [("a", .num 1)])) (.ok (.num 1)) (.err ⟨13, "gone"⟩)).outcome
      = .pending ∧
    (Outcome.pending : Outcome Obj) ≠ .rejected (.notFound "Does not exist") := by
  exact ⟨by decide, by decide, by decide⟩

/-- Claim C3 amended: `update(id, data, params)` resolves with the same
value whenever `patch` resolves, but when `patch` rejects, `update` never
settles (the rejection is not forwarded) instead of rejecting with the
same error. -/
theorem C3_update_delegates_resolutions_only (c : Cfg) (id : String) (data : Obj)
    (g1 g1' : StoreRes (Option Obj)) (rep rep' : StoreRes Val)
    (g2 g2' : StoreRes (Option Obj)) (v : Obj) (e : Err)
    (hres : (Service.patch c id data g1 rep g2).outcome = .resolved v)
    (hrej : (Service.patch c id data g1' rep' g2').outcome = .rejected e) :
    (Service.update c id data g1 rep g2).outcome = .resolved v ∧
    (Service.update c id data g1' rep' g2').outcome = .pending := by
  constructor
  · simp [Service.update, hres]
  · simp [Service.update, hrej]

/-- Witness for C3 amended at concrete inputs: one run where patch
resolves (and update resolves with the same value), one where patch
rejects (and update stays pending). -/
theorem C3_update_delegates_resolutions_only_witness :
    (Service.update ⟨"users", "::", "uuid"⟩ "abc" [("b", Val.num 2)]
        (.ok (some [("a", Val.num 1)])) (.ok (.num 1))
        (.ok (some [("a", Val.num 1), ("b", Val.num 2),
          ("_type", Val.str "users")]))).outcome
      = .resolved [("a", Val.num 1), ("b", Val.num 2), ("_type", Val.str "users")] ∧
    (Service.update ⟨"users", "::", "uuid"⟩ "abc" [("b", Val.num 2)]
        (.ok (some [("a", Val.num 1)])) (.ok (.num 1)) (.ok none)).outcome
      = .pending :=
  C3_update_delegates_resolutions_only ⟨"users", "::", "uuid"⟩ "abc"
    [("b", Val.num 2)]
    (.ok (some [("a", Val.num 1)])) (.ok (some [("a", Val.num 1)]))
    (.ok (.num 1)) (.ok (.num 1))
    (.ok (some [("a", Val.num 1), ("b", Val.num 2), ("_type", Val.str "users")]))
    (.ok none)
    [("a", Val.num 1), ("b", Val.num 2), ("_type", Val.str "users")]
    (.notFound "Does not exist")
    (by decide) (by decide)

/-- Claim C4 (confirmed): when the initial read resolves with entity `e0`,
`patch(id, data, params)` issues a store `replace` at the key derived from
the `id` argument whose payload is the shallow merge of `data` over `e0`
(keys of `data` win, other stored keys are preserved) with `_type` forced
to the collection name, and the patch promise settles exactly as the fresh
`get` that follows the replace. -/
theorem C4_patch_merge_replace_reget (c : Cfg) (id : String) (data e0 : Obj)
    (rep : StoreRes Val) (g2 : StoreRes (Option Obj))
    (hnd : (keysOf data).Nodup) :
    Service.writtenKey (Service.patch c id data (.ok (some e0)) rep g2).replaced
      = some (Service.buildKey c id) ∧
    getKey (Service.writtenObj
        (Service.patch c id data (.ok (some e0)) rep g2).replaced) "_type"
      = some (.str c.name) ∧
    (∀ k, k ≠ "_type" →
      getKey (Service.writtenObj
          (Service.patch c id data (.ok (some e0)) rep g2).replaced) k
        = Option.or (getKey data k) (getKey e0 k)) ∧
    (Service.patch c id data (.ok (some e0)) rep g2).outcome = Service.get g2 := by
  have hrepl : (Service.patch c id data (.ok (some e0)) rep g2).replaced
      = some (Service.buildKey c id,
          objAssign (objAssign e0 data) [("_type", Val.str c.name)]) := rfl
  have hm : objAssign (objAssign e0 data) [("_type", Val.str c.name)]
      = setKey (objAssign e0 data) "_type" (Val.str c.name) := rfl
  refine ⟨by rw [hrepl]; rfl, ?_, ?_, rfl⟩
  · rw [hrepl]
    show getKey (objAssign (objAssign e0 data) [("_type", Val.str c.name)]) "_type"
      = some (.str c.name)
    rw [hm, getKey_setKey_self]
  · intro k hk
    rw [hrepl]
    show getKey (objAssign (objAssign e0 data) [("_type", Val.str c.name)]) k
      = Option.or (getKey data k) (getKey e0 k)
    rw [hm, getKey_setKey_ne _ "_type" k _ hk, getKey_objAssign data e0 k hnd]

/-- Witness for C4: a stored entity with field `a`, a patch payload with
field `b`: the replace payload keeps `a`, adds `b`, forces `_type`, the
key derives from the id argument, and the outcome is the fresh get. -/
theorem C4_patch_merge_replace_reget_witness :
    Service.writtenKey (Service.patch ⟨"users", "::", "uuid"⟩ "abc"
        [("b", Val.num 2)] (.ok (some [("a", Val.num 1)])) (.ok (.num 1))
        (.ok (some [("a", Val.num 1), ("b", Val.num 2)]))).replaced
      = some "users::abc" ∧
    getKey (Service.writtenObj (Service.patch ⟨"users", "::", "uuid"⟩ "abc"
        [("b", Val.num 2)] (.ok (some [("a", Val.num 1)])) (.ok (.num 1))
        (.ok (some [("a", Val.num 1), ("b", Val.num 2)]))).replaced) "_type"
      = some (Val.str "users") ∧
    getKey (Service.writtenObj (Service.patch ⟨"users", "::", "uuid"⟩ "abc"
        [("b", Val.num 2)] (.ok (some [("a", Val.num 1)])) (.ok (.num 1))
        (.ok (some [("a", Val.num 1), ("b", Val.num 2)]))).replaced) "a"
      = some (Val.num 1) ∧
    getKey (Service.writtenObj (Service.patch ⟨"users", "::", "uuid"⟩ "abc"
        [("b", Val.num 2)] (.ok (some [("a", Val.num 1)])) (.ok (.num 1))
        (.ok (some [("a", Val.num 1), ("b", Val.num 2)]))).replaced) "b"
      = some (Val.num 2) ∧
    (Service.patch ⟨"users", "::", "uuid"⟩ "abc"
        [("b", Val.num 2)] (.ok (some [("a", Val.num 1)])) (.ok (.num 1))
        (.ok (some [("a", Val.num 1), ("b", Val.num 2)]))).outcome
      = .resolved [("a", Val.num 1), ("b", Val.num 2)] := by
  have h := C4_patch_merge_replace_reget ⟨"users", "::", "uuid"⟩ "abc"
    [("b", Val.num 2)] [("a", Val.num 1)] (.ok (.num 1))
    (.ok (some [("a", Val.num 1), ("b", Val.num 2)])) (by decide)
  exact ⟨h.1.trans (by decide), h.2.1.trans (by decide),
    (h.2.2.1 "a" (by decide)).trans (by decide),
    (h.2.2.1 "b" (by decide)).trans (by decide),
    h.2.2.2.trans (by decide)⟩

/-- Claim C5 (confirmed): with a pagination config whose default is set
(truthy, as the code tests it), `find` substitutes the default when
`$limit` is absent or null, clamps the result into the interval from 0 to
`max`, hands the clamped `$limit` to the query compiler (so the executed
statement sees the clamped value), and the returned envelope's `limit`
field equals that clamped value. -/
theorem C5_find_limit_clamped (c : Cfg) (dflt p : Service.Pag) (q : Obj)
    (rows : List Obj) (cnt : Int) (d l : Int)
    (hd : p.pdefault = some d) (hd0 : d ≠ 0) (hmax : 0 ≤ p.pmax)
    (hl : ((getKey q "$limit" = none ∨ getKey q "$limit" = some Val.null) ∧ l = d)
        ∨ getKey q "$limit" = some (Val.num l)) :
    getKey (Service.find c dflt (some ⟨some q, some p⟩) rows cnt).compiledQuery
        "$limit"
      = some (Val.num (Service.clampInt 0 p.pmax l)) ∧
    Service.envelopeLimit
        (Service.find c dflt (some ⟨some q, some p⟩) rows cnt).outcome
      = some (some (Val.num (Service.clampInt 0 p.pmax l))) ∧
    0 ≤ Service.clampInt 0 p.pmax l ∧ Service.clampInt 0 p.pmax l ≤ p.pmax := by
  have hact : Service.pagActive p = true := by
    simp [Service.pagActive, hd, hd0]
  have hlim1 : getKey (setKey q "_type" (Val.str c.name)) "$limit"
      = getKey q "$limit" :=
    getKey_setKey_ne q "_type" "$limit" _ (by decide)
  have hdl : Service.defaultedLimit p
      (getKey (setKey q "_type" (Val.str c.name)) "$limit") = Val.num l := by
    rw [hlim1]
    rcases hl with ⟨h1, h2⟩ | h1
    · rcases h1 with h1 | h1 <;> simp [Service.defaultedLimit, h1, hd, h2]
    · simp [Service.defaultedLimit, h1]
  have hprep : getKey (Service.findPrep c p q) "$limit"
      = some (Val.num (Service.clampInt 0 p.pmax l)) := by
    unfold Service.findPrep
    rw [getKey_delKey_ne _ "$consistency" "$limit" (by decide), if_pos hact,
      getKey_setKey_self, hdl]
    rfl
  have hsellim : getKey (Service.findInnerQuery (Service.findPrep c p q)) "$limit"
      = getKey (Service.findPrep c p q) "$limit" := by
    unfold Service.findInnerQuery
    by_cases hsel : Service.selTruthy (getKey (Service.findPrep c p q) "$select")
      = true
    · rw [if_pos hsel, getKey_delKey_ne _ "$select" "$limit" (by decide)]
    · rw [if_neg hsel]
  refine ⟨hprep, ?_, ?_, ?_⟩
  · show Service.envelopeLimit (Outcome.resolved
        (Service.findInner p (Service.findPrep c p q) rows cnt).1)
      = some (some (Val.num (Service.clampInt 0 p.pmax l)))
    unfold Service.findInner
    rw [if_pos hact]
    show some (getKey (Service.findInnerQuery (Service.findPrep c p q)) "$limit")
      = some (some (Val.num (Service.clampInt 0 p.pmax l)))
    rw [hsellim, hprep]
  · unfold Service.clampInt
    split_ifs <;> omega
  · unfold Service.clampInt
    split_ifs <;> omega

/-- Witness for C5 at the spec's own example: default 10, max 50,
requested limit 10000: the compiled query carries limit 50 and the
envelope reports limit 50. -/
theorem C5_find_limit_clamped_witness :
    getKey (Service.find ⟨"users", "::", "uuid"⟩ ⟨none, 0⟩
        (some ⟨some [("foo", Val.str "bar"), ("$limit", Val.num 10000)],
          some ⟨some 10, 50⟩⟩) [] 0).compiledQuery "$limit"
      = some (Val.num 50) ∧
    Service.envelopeLimit (Service.find ⟨"users", "::", "uuid"⟩ ⟨none, 0⟩
        (some ⟨some [("foo", Val.str "bar"), ("$limit", Val.num 10000)],
          some ⟨some 10, 50⟩⟩) [] 0).outcome
      = some (some (Val.num 50)) := by
  have h := C5_find_limit_clamped ⟨"users", "::", "uuid"⟩ ⟨none, 0⟩ ⟨some 10, 50⟩
    [("foo", Val.str "bar"), ("$limit", Val.num 10000)] [] 0 10 10000
    rfl (by decide) (by decide) (Or.inr (by decide))
  exact ⟨h.1.trans (by decide), h.2.1.trans (by decide)⟩

/-- Claim C6 (confirmed): `find` rejects with `BadRequest` exactly when no
params are passed or the params carry no query object; in every other case
the outcome is not a `BadRequest` rejection. -/
theorem C6_find_badRequest_iff (c : Cfg) (dflt : Service.Pag)
    (params : Option Service.FindParams) (rows : List Obj) (cnt : Int) :
    (∃ m, (Service.find c dflt params rows cnt).outcome
        = .rejected (.badRequest m))
      ↔ params = none ∨ ∃ ps, params = some ps ∧ ps.query = none := by
  cases params with
  | none =>
    simp [Service.find]
  | some ps =>
    obtain ⟨oq, op⟩ := ps
    cases oq with
    | none => simp [Service.find]
    | some q => simp [Service.find]

/-- Claim C7 (confirmed): every store write the service issues — the
insert of `create` and the replace of `patch` (and of `update`, which
delegates to `patch`) — carries `_type` equal to the collection name,
whatever the caller-supplied payload contained. -/
theorem C7_type_forced_on_every_write (c : Cfg) (fresh : String) (d : Obj)
    (ins : StoreRes Val) (reget : StoreRes (Option Obj))
    (id : String) (pd e0 : Obj) (rep : StoreRes Val)
    (g2 : StoreRes (Option Obj)) :
    Service.writtenType (Service.create c fresh (some d) ins reget).inserted
      = some (.str c.name) ∧
    Service.writtenType (Service.patch c id pd (.ok (some e0)) rep g2).replaced
      = some (.str c.name) ∧
    Service.writtenType (Service.update c id pd (.ok (some e0)) rep g2).replaced
      = some (.str c.name) := by
  have hd1 : getKey (setKey d "_type" (Val.str c.name)) "_type"
      = some (Val.str c.name) := getKey_setKey_self d "_type" _
  have hpatch : Service.writtenType
      (Service.patch c id pd (.ok (some e0)) rep g2).replaced
      = some (.str c.name) := by
    have hm : objAssign (objAssign e0 pd) [("_type", Val.str c.name)]
        = setKey (objAssign e0 pd) "_type" (Val.str c.name) := rfl
    show getKey (objAssign (objAssign e0 pd) [("_type", Val.str c.name)]) "_type"
      = some (.str c.name)
    rw [hm, getKey_setKey_self]
  refine ⟨?_, hpatch, ?_⟩
  · cases hid : getKey (setKey d "_type" (Val.str c.name)) c.idField with
    | some v =>
      simp [Service.create, Service.ensureId, Service.writtenType, hid, hd1]
    | none =>
      have hne : "_type" ≠ c.idField := by
        intro he
        rw [← he, hd1] at hid
        exact Option.noConfusion hid
      simp [Service.create, Service.ensureId, Service.writtenType, hid,
        getKey_setKey_ne _ c.idField "_type" _ hne, hd1]
  · show Service.writtenType
        (Service.patch c id pd (.ok (some e0)) rep g2).replaced
      = some (.str c.name)
    exact hpatch

/-- Claim C8 counterexample: the claim quantifies over every `$select`
list.  With `$select` present but empty (an empty array is truthy, so it
is captured and deleted), the code skips the projection because
`selected.length > 0` fails, and returns the rows unprojected; the
restriction of the row to the empty field set would be the empty object. -/
theorem C8_empty_select_not_projected :
    (Service.find ⟨"users", "::", "uuid"⟩ ⟨none, 0⟩
        (some ⟨some [("$select", Val.strList []), ("foo", Val.str "bar")], none⟩)
        [[("foo", Val.str "bar"), ("bar", Val.str "foo")]] 1).outcome
      = .resolved (.bare [[("foo", Val.str "bar"), ("bar", Val.str "foo")]]) ∧
    pickKeys [] [("foo", Val.str "bar"), ("bar", Val.str "foo")] = ([] : Obj) ∧
    ([] : Obj) ≠ [("foo", Val.str "bar"), ("bar", Val.str "foo")] := by
  exact ⟨by decide, by decide, by decide⟩

/-- Claim C8 amended: for every find call whose query contains `$select`
with a NONEMPTY list of field names, every returned row is exactly the
restriction of the fetched row to the selected field set: a selected field
present in the row keeps its value, every other field is removed, and a
selected field absent from a row stays absent, never defaulted. -/
theorem C8_select_projects_rows (c : Cfg) (dflt p : Service.Pag) (q : Obj)
    (rows : List Obj) (cnt : Int) (ss : List String)
    (hsel : getKey q "$select" = some (.strList ss)) (hss : ss ≠ []) :
    Service.resultRows (Service.find c dflt (some ⟨some q, some p⟩) rows cnt).outcome
      = some (rows.map (fun a => pickKeys ss a)) ∧
    (∀ a k, getKey (pickKeys ss a) k = if k ∈ ss then getKey a k else none) := by
  have hq1 : getKey (Service.findPrep c p q) "$select" = some (Val.strList ss) := by
    rw [getKey_findPrep_other c p q "$select" (by decide) (by decide) (by decide),
      hsel]
  constructor
  · have hrows : Service.findInnerRows (Service.findPrep c p q) rows
        = Service.stripKeys ss rows := by
      simp [Service.findInnerRows, hq1, Service.selectedOf, List.length_pos, hss]
    by_cases hact : Service.pagActive p = true
    · simp [Service.find, Service.findInner, hact, Service.resultRows, hrows,
        Service.stripKeys]
    · simp [Service.find, Service.findInner, hact, Service.resultRows, hrows,
        Service.stripKeys]
  · exact fun a k => getKey_pickKeys ss a k

/-- Witness for C8 amended, at the spec's own example shape: rows
`{foo: bar, bar: foo}` with `$select: [foo]` project to exactly
`{foo: bar}`, and the unselected field reads back as absent. -/
theorem C8_select_projects_rows_witness :
    Service.resultRows (Service.find ⟨"users", "::", "uuid"⟩ ⟨none, 0⟩
        (some ⟨some [("$select", Val.strList ["foo"]), ("foo", Val.str "bar")],
          some ⟨none, 0⟩⟩)
        [[("foo", Val.str "bar"), ("bar", Val.str "foo")]] 1).outcome
      = some [[("foo", Val.str "bar")]] ∧
    getKey (pickKeys ["foo"] [("foo", Val.str "bar"), ("bar", Val.str "foo")]) "bar"
      = none := by
  have h := C8_select_projects_rows ⟨"users", "::", "uuid"⟩ ⟨none, 0⟩ ⟨none, 0⟩
    [("$select", Val.strList ["foo"]), ("foo", Val.str "bar")]
    [[("foo", Val.str "bar"), ("bar", Val.str "foo")]] 1 ["foo"]
    (by decide) (by decide)
  exact ⟨h.1.trans (by decide),
    (h.2 [("foo", Val.str "bar"), ("bar", Val.str "foo")] "bar").trans (by decide)⟩

/-- Claim C9 (confirmed): the key handed to the store's `remove` is built
from the fetched entity's id field, not from the `id` argument: when the
entity's id field holds a string differing from the passed id, the deleted
key differs from the key that was read; when the entity lacks the id
field, a fresh id is generated, written into the entity, and used to build
the deletion key. -/
theorem C9_remove_key_from_entity_id (c : Cfg) (fresh : String) (e e2 : Obj)
    (remResp remResp2 : StoreRes Obj) (id s : String)
    (hget : getKey e c.idField = some (.str s)) (hne : s ≠ id)
    (habs : getKey e2 c.idField = none) :
    (Service.remove c fresh (.ok (some e)) remResp).removedKey
      = some (Service.buildKey c s) ∧
    (Service.remove c fresh (.ok (some e)) remResp).removedKey
      ≠ some (Service.buildKey c id) ∧
    (Service.remove c fresh (.ok (some e2)) remResp2).removedKey
      = some (Service.buildKey c fresh) ∧
    Service.getKeyA (Service.remove c fresh (.ok (some e2)) remResp2).dataAfter
        c.idField
      = some (.str fresh) := by
  have h1 : (Service.remove c fresh (.ok (some e)) remResp).removedKey
      = some (Service.buildKey c s) := by
    cases remResp <;>
      simp [Service.remove, Service.get, Service.ensureId, hget, valToStr]
  refine ⟨h1, ?_, ?_, ?_⟩
  · rw [h1]
    intro hkey
    exact hne (buildKey_inj c (Option.some.inj hkey))
  · cases remResp2 <;>
      simp [Service.remove, Service.get, Service.ensureId, habs, valToStr]
  · cases remResp2 <;>
      simp [Service.remove, Service.get, Service.ensureId, habs, Service.getKeyA,
        getKey_setKey_self]

/-- Witness for C9: entity `{uuid: xyz}` removed through `remove("abc")`
deletes at `users::xyz`, not `users::abc`; an entity without a `uuid`
field gets the generated id written in and deleted at the generated key. -/
theorem C9_remove_key_from_entity_id_witness :
    (Service.remove ⟨"users", "::", "uuid"⟩ "gen"
        (.ok (some [("uuid", Val.str "xyz")])) (.ok [])).removedKey
      = some (Service.buildKey ⟨"users", "::", "uuid"⟩ "xyz") ∧
    (Service.remove ⟨"users", "::", "uuid"⟩ "gen"
        (.ok (some [("uuid", Val.str "xyz")])) (.ok [])).removedKey
      ≠ some (Service.buildKey ⟨"users", "::", "uuid"⟩ "abc") ∧
    (Service.remove ⟨"users", "::", "uuid"⟩ "gen"
        (.ok (some [("foo", Val.str "f")])) (.ok [])).removedKey
      = some (Service.buildKey ⟨"users", "::", "uuid"⟩ "gen") ∧
    Service.getKeyA (Service.remove ⟨"users", "::", "uuid"⟩ "gen"
        (.ok (some [("foo", Val.str "f")])) (.ok [])).dataAfter "uuid"
      = some (Val.str "gen") :=
  C9_remove_key_from_entity_id ⟨"users", "::", "uuid"⟩ "gen"
    [("uuid", Val.str "xyz")] [("foo", Val.str "f")] (.ok []) (.ok [])
    "abc" "xyz" (by decide) (by decide) (by decide)

/-- Claim C10 counterexample: the claim ends with "after the call returns
the caller's FilterSpec no longer equals the one passed in".  A query that
is already a fixed point of the mutations — `_type` already the collection
name, no `$consistency` or `$select`, pagination inactive — comes back
unchanged. -/
theorem C10_fixed_point_query_unchanged :
    (Service.find ⟨"users", "::", "uuid"⟩ ⟨none, 0⟩
        (some ⟨some [("_type", Val.str "users")], none⟩) [] 0).queryAfter
      = some [("_type", Val.str "users")] := by
  decide

/-- Claim C10 amended: `find` mutates the caller's query object in place:
it sets `_type` to the collection name, overwrites `$limit` with the
defaulted and clamped value when pagination applies, and deletes the
`$consistency` and `$select` keys (a present `$select` is, per the
FilterSpec data model, an array of field names); consequently, whenever
the passed query did not already carry `_type` equal to the collection
name, the caller's FilterSpec after the call no longer equals the one
passed in. -/
theorem C10_find_mutates_query (c : Cfg) (dflt p : Service.Pag) (q : Obj)
    (rows : List Obj) (cnt : Int)
    (htype : getKey q "_type" ≠ some (.str c.name)) :
    Service.getKeyA
        (Service.find c dflt (some ⟨some q, some p⟩) rows cnt).queryAfter "_type"
      = some (.str c.name) ∧
    (Service.pagActive p = true →
      Service.getKeyA
          (Service.find c dflt (some ⟨some q, some p⟩) rows cnt).queryAfter "$limit"
        = some (Service.jsClamp 0 p.pmax
            (Service.defaultedLimit p (getKey q "$limit")))) ∧
    Service.getKeyA (Service.find c dflt (some ⟨some q, some p⟩) rows cnt).queryAfter
        "$consistency" = none ∧
    (∀ ss, getKey q "$select" = some (.strList ss) →
      Service.getKeyA
          (Service.find c dflt (some ⟨some q, some p⟩) rows cnt).queryAfter "$select"
        = none) ∧
    (getKey q "$select" = none →
      Service.getKeyA
          (Service.find c dflt (some ⟨some q, some p⟩) rows cnt).queryAfter "$select"
        = none) ∧
    (Service.find c dflt (some ⟨some q, some p⟩) rows cnt).queryAfter ≠ some q := by
  have hafter : (Service.find c dflt (some ⟨some q, some p⟩) rows cnt).queryAfter
      = some (Service.findInnerQuery (Service.findPrep c p q)) := by
    show some (Service.findInner p (Service.findPrep c p q) rows cnt).2
      = some (Service.findInnerQuery (Service.findPrep c p q))
    rw [findInner_snd]
  have htypeAfter : Service.getKeyA
      (Service.find c dflt (some ⟨some q, some p⟩) rows cnt).queryAfter "_type"
      = some (.str c.name) := by
    rw [hafter]
    show getKey (Service.findInnerQuery (Service.findPrep c p q)) "_type"
      = some (.str c.name)
    rw [getKey_findInnerQuery_ne _ "_type" (by decide), getKey_findPrep_type]
  refine ⟨htypeAfter, ?_, ?_, ?_, ?_, ?_⟩
  · intro hact
    rw [hafter]
    show getKey (Service.findInnerQuery (Service.findPrep c p q)) "$limit"
      = some (Service.jsClamp 0 p.pmax
          (Service.defaultedLimit p (getKey q "$limit")))
    rw [getKey_findInnerQuery_ne _ "$limit" (by decide)]
    unfold Service.findPrep
    rw [getKey_delKey_ne _ "$consistency" "$limit" (by decide), if_pos hact,
      getKey_setKey_self, getKey_setKey_ne q "_type" "$limit" _ (by decide)]
  · rw [hafter]
    show getKey (Service.findInnerQuery (Service.findPrep c p q)) "$consistency"
      = none
    rw [getKey_findInnerQuery_ne _ "$consistency" (by decide),
      getKey_findPrep_consistency]
  · intro ss hsel
    have hq1sel : getKey (Service.findPrep c p q) "$select"
        = some (Val.strList ss) := by
      rw [getKey_findPrep_other c p q "$select" (by decide) (by decide) (by decide),
        hsel]
    rw [hafter]
    show getKey (Service.findInnerQuery (Service.findPrep c p q)) "$select" = none
    unfold Service.findInnerQuery
    rw [hq1sel,
      if_pos (show Service.selTruthy (some (Val.strList ss)) = true from rfl)]
    exact getKey_delKey_self _ "$select"
  · intro habs
    have hq1sel : getKey (Service.findPrep c p q) "$select" = none := by
      rw [getKey_findPrep_other c p q "$select" (by decide) (by decide) (by decide),
        habs]
    rw [hafter]
    show getKey (Service.findInnerQuery (Service.findPrep c p q)) "$select" = none
    unfold Service.findInnerQuery
    rw [hq1sel, if_neg (by decide)]
    exact hq1sel
  · intro hEq
    rw [hEq] at htypeAfter
    exact htype htypeAfter

/-- Witness for C10 amended: a query with a foreign `_type`, a
`$consistency` hint, a `$select` list, and an oversized `$limit` under
pagination default 10 / max 50 comes back with `_type` forced, `$limit`
clamped to 50, and the two directive keys deleted — so it differs from
the query that was passed in. -/
theorem C10_find_mutates_query_witness :
    Service.getKeyA (Service.find ⟨"users", "::", "uuid"⟩ ⟨none, 0⟩
        (some ⟨some [("foo", Val.str "bar"), ("$consistency", Val.num 1),
          ("$select", Val.strList ["foo"]), ("$limit", Val.num 10000)],
          some ⟨some 10, 50⟩⟩) [] 0).queryAfter "_type"
      = some (Val.str "users") ∧
    Service.getKeyA (Service.find ⟨"users", "::", "uuid"⟩ ⟨none, 0⟩
        (some ⟨some [("foo", Val.str "bar"), ("$consistency", Val.num 1),
          ("$select", Val.strList ["foo"]), ("$limit", Val.num 10000)],
          some ⟨some 10, 50⟩⟩) [] 0).queryAfter "$limit"
      = some (Val.num 50) ∧
    Service.getKeyA (Service.find ⟨"users", "::", "uuid"⟩ ⟨none, 0⟩
        (some ⟨some [("foo", Val.str "bar"), ("$consistency", Val.num 1),
          ("$select", Val.strList ["foo"]), ("$limit", Val.num 10000)],
          some ⟨some 10, 50⟩⟩) [] 0).queryAfter "$consistency"
      = none ∧
    Service.getKeyA (Service.find ⟨"users", "::", "uuid"⟩ ⟨none, 0⟩
        (some ⟨some [("foo", Val.str "bar"), ("$consistency", Val.num 1),
          ("$select", Val.strList ["foo"]), ("$limit", Val.num 10000)],
          some ⟨some 10, 50⟩⟩) [] 0).queryAfter "$select"
      = none ∧
    (Service.find ⟨"users", "::", "uuid"⟩ ⟨none, 0⟩
        (some ⟨some [("foo", Val.str "bar"), ("$consistency", Val.num 1),
          ("$select", Val.strList ["foo"]), ("$limit", Val.num 10000)],
          some ⟨some 10, 50⟩⟩) [] 0).queryAfter
      ≠ some [("foo", Val.str "bar"), ("$consistency", Val.num 1),
          ("$select", Val.strList ["foo"]), ("$limit", Val.num 10000)] := by
  have h := C10_find_mutates_query ⟨"users", "::", "uuid"⟩ ⟨none, 0⟩ ⟨some 10, 50⟩
    [("foo", Val.str "bar"), ("$consistency", Val.num 1),
      ("$select", Val.strList ["foo"]), ("$limit", Val.num 10000)]
    [] 0 (by decide)
  exact ⟨h.1, (h.2.1 (by decide)).trans (by decide), h.2.2.1,
    h.2.2.2.1 ["foo"] (by decide), h.2.2.2.2.2⟩

end FC
